import Mathlib

/-!
# FLIM (Feature Learning from Image Markers) — verification development

Shallow embedding of the FLIM core declared in `src/include/iftFLIM.h`
(LIDS-UNICAMP/FLIMbuilder).  The repository ships only the interface header;
every implementation body is absent, so each operation below is modelled from
the specification's description of that operation (its doc comment says so
explicitly).  Machine integers are modelled as `Nat`/`Int`, floating-point
values as `Rat`, fallible C functions as `Except FLIMError`.
-/

namespace FLIM

/-- Error taxonomy of the spec (§7): ConfigError, DataError, DimensionError,
ResourceError, IOError. -/
inductive FLIMError where
  | configError
  | dataError
  | dimensionError
  | resourceError
  | ioError
deriving DecidableEq

/-- The per-layer hyperparameters of `iftFLIMLayer` (iftFLIM.h, lines 29-40).
C `int[3]` arrays become `Nat × Nat × Nat` (the sizes and rates are
non-negative), the `pool_type` C string stays a `String`
("no_pool", "avg_pool", "max_pool"), and the `skip_connection` index array
becomes a `List Nat`. -/
structure FLIMLayer where
  kernel_size : Nat × Nat × Nat
  dilation_rate : Nat × Nat × Nat
  nkernels_per_image : Nat
  nkernels_per_marker : Nat
  noutput_channels : Nat
  relu : Bool
  pool_type : String
  pool_size : Nat × Nat × Nat
  pool_stride : Nat
  skip_connection : List Nat
deriving DecidableEq

/-- The network architecture `iftFLIMArch` (iftFLIM.h, lines 42-47): layer
sequence plus the global hyperparameters `stdev_factor` (a C float, modelled
as `Rat`) and `apply_intrinsic_atrous`. -/
structure FLIMArch where
  nlayers : Nat
  layer : List FLIMLayer
  stdev_factor : Rat
  apply_intrinsic_atrous : Bool
deriving DecidableEq

/-! ## Adjacency/Dilation Builder (spec §4.1) -/

/-- One axis of the adjacency grid: `k` points centered at zero with step
`d * a` (dilation rate times atrous factor).  For odd `k` the points are
`-(k/2)*d*a, …, 0, …, (k/2)*d*a` in increasing order. -/
def axisOffsets (k d a : Nat) : List Int :=
  (List.range k).map
    (fun (i : Nat) => ((i : Int) - ((k / 2 : Nat) : Int)) * ((d * a : Nat) : Int))

/-- The ordered 3-D grid of offsets, lexicographic over (z, y, x) with x
fastest, as the spec's Data Model requires a stable deterministic order. -/
def offsetGrid (lx ly lz : List Int) : List (Int × Int × Int) :=
  lz.flatMap (fun z => ly.flatMap (fun y => lx.map (fun x => (x, y, z))))

/-- Modelled from the spec: `iftFLIMAdaptiveAdjRelFromKernel`
(declared at iftFLIM.h line 266; its implementation is not under `src/`).
Per §4.1 the output adjacency relation has offset magnitudes equal to the base
dilation rate multiplied by the atrous factor, spanning `kernel_size` points
per axis centered at zero; even extents are an invalid configuration
(ConfigError); the 2D flag collapses the third axis to the single offset
zero. -/
def iftFLIMAdaptiveAdjRelFromKernel (layer : FLIMLayer) (atrous_factor : Nat)
    (dim3D : Bool) : Except FLIMError (List (Int × Int × Int)) :=
  if layer.kernel_size.1 % 2 = 0 ∨ layer.kernel_size.2.1 % 2 = 0 ∨
      (if dim3D then layer.kernel_size.2.2 else 1) % 2 = 0 then
    .error .configError
  else
    .ok (offsetGrid
          (axisOffsets layer.kernel_size.1 layer.dilation_rate.1 atrous_factor)
          (axisOffsets layer.kernel_size.2.1 layer.dilation_rate.2.1 atrous_factor)
          (axisOffsets (if dim3D then layer.kernel_size.2.2 else 1)
            layer.dilation_rate.2.2 atrous_factor))

/-- One axis of the non-adaptive adjacency grid: `k` points centered at zero
with step `d` (the base dilation rate alone). -/
def axisOffsetsBase (k d : Nat) : List Int :=
  (List.range k).map
    (fun (i : Nat) => ((i : Int) - ((k / 2 : Nat) : Int)) * ((d : Nat) : Int))

/-- Modelled from the spec: `iftFLIMAdjRelFromKernel` (declared at iftFLIM.h
line 251; its implementation is not under `src/`).  The same builder as the
adaptive one, but without an atrous factor: the step on each axis is the base
dilation rate alone. -/
def iftFLIMAdjRelFromKernel (layer : FLIMLayer) (dim3D : Bool) :
    Except FLIMError (List (Int × Int × Int)) :=
  if layer.kernel_size.1 % 2 = 0 ∨ layer.kernel_size.2.1 % 2 = 0 ∨
      (if dim3D then layer.kernel_size.2.2 else 1) % 2 = 0 then
    .error .configError
  else
    .ok (offsetGrid
          (axisOffsetsBase layer.kernel_size.1 layer.dilation_rate.1)
          (axisOffsetsBase layer.kernel_size.2.1 layer.dilation_rate.2.1)
          (axisOffsetsBase (if dim3D then layer.kernel_size.2.2 else 1)
            layer.dilation_rate.2.2))

/-! ### Basic lemmas about the builder -/

lemma length_axisOffsets (k d a : Nat) : (axisOffsets k d a).length = k := by
  unfold axisOffsets
  rw [List.length_map, List.length_range]

lemma length_offsetGrid_inner (lx ly : List Int) (z : Int) :
    (ly.flatMap (fun y => lx.map (fun x => (x, y, z)))).length = ly.length * lx.length := by
  induction ly with
  | nil => simp
  | cons y ys ih =>
    rw [List.flatMap_cons, List.length_append, List.length_map, ih, List.length_cons]
    ring

lemma length_offsetGrid (lx ly lz : List Int) :
    (offsetGrid lx ly lz).length = lx.length * ly.length * lz.length := by
  unfold offsetGrid
  induction lz with
  | nil => simp
  | cons z zs ih =>
    rw [List.flatMap_cons, List.length_append, length_offsetGrid_inner, ih, List.length_cons]
    ring

lemma mem_offsetGrid {lx ly lz : List Int} {p : Int × Int × Int} :
    p ∈ offsetGrid lx ly lz ↔ p.1 ∈ lx ∧ p.2.1 ∈ ly ∧ p.2.2 ∈ lz := by
  rcases p with ⟨x, y, z⟩
  simp only [offsetGrid, List.mem_flatMap, List.mem_map, Prod.mk.injEq]
  constructor
  · rintro ⟨z', hz, y', hy, x', hx, rfl, rfl, rfl⟩
    exact ⟨hx, hy, hz⟩
  · rintro ⟨hx, hy, hz⟩
    exact ⟨z, hz, y, hy, x, hx, rfl, rfl, rfl⟩

lemma mem_axisOffsets_iff {k : Nat} (d a : Nat) (hk : k % 2 = 1) (x : Int) :
    x ∈ axisOffsets k d a ↔
      ∃ m : Int, |m| ≤ ((k / 2 : Nat) : Int) ∧ x = m * ((d * a : Nat) : Int) := by
  unfold axisOffsets
  rw [List.mem_map]
  constructor
  · rintro ⟨i, hi, rfl⟩
    rw [List.mem_range] at hi
    refine ⟨(i : Int) - ((k / 2 : Nat) : Int), ?_, rfl⟩
    rw [abs_le]
    omega
  · rintro ⟨m, hm, rfl⟩
    rw [abs_le] at hm
    refine ⟨(m + ((k / 2 : Nat) : Int)).toNat, ?_, ?_⟩
    · rw [List.mem_range]
      omega
    · have h : ((m + ((k / 2 : Nat) : Int)).toNat : Int) = m + ((k / 2 : Nat) : Int) := by
        omega
      rw [h]
      ring

lemma neg_mem_axisOffsets {k d a : Nat} (hk : k % 2 = 1) {x : Int}
    (hx : x ∈ axisOffsets k d a) : -x ∈ axisOffsets k d a := by
  rw [mem_axisOffsets_iff d a hk] at hx ⊢
  obtain ⟨m, hm, rfl⟩ := hx
  exact ⟨-m, by simpa using hm, by ring⟩

lemma neg_mem_offsetGrid {lx ly lz : List Int}
    (hx : ∀ u ∈ lx, -u ∈ lx) (hy : ∀ u ∈ ly, -u ∈ ly) (hz : ∀ u ∈ lz, -u ∈ lz) :
    ∀ p ∈ offsetGrid lx ly lz, -p ∈ offsetGrid lx ly lz := by
  intro p hp
  rw [mem_offsetGrid] at hp ⊢
  obtain ⟨h1, h2, h3⟩ := hp
  exact ⟨hx _ h1, hy _ h2, hz _ h3⟩

/-- The base axis grid is the adaptive axis grid at atrous factor 1. -/
lemma axisOffsetsBase_eq (k d : Nat) : axisOffsetsBase k d = axisOffsets k d 1 := by
  unfold axisOffsets axisOffsetsBase
  simp [Nat.mul_one]

/-- Inversion of a successful adaptive builder run: all active extents are
odd and the result is the full offset grid. -/
lemma adaptive_ok_iff (layer : FLIMLayer) (a : Nat) (dim3D : Bool)
    (A : List (Int × Int × Int)) :
    iftFLIMAdaptiveAdjRelFromKernel layer a dim3D = .ok A ↔
      (layer.kernel_size.1 % 2 = 1 ∧ layer.kernel_size.2.1 % 2 = 1 ∧
        (if dim3D then layer.kernel_size.2.2 else 1) % 2 = 1) ∧
      A = offsetGrid
            (axisOffsets layer.kernel_size.1 layer.dilation_rate.1 a)
            (axisOffsets layer.kernel_size.2.1 layer.dilation_rate.2.1 a)
            (axisOffsets (if dim3D then layer.kernel_size.2.2 else 1)
              layer.dilation_rate.2.2 a) := by
  unfold iftFLIMAdaptiveAdjRelFromKernel
  set kz := (if dim3D then layer.kernel_size.2.2 else 1) with hkz
  by_cases hc : layer.kernel_size.1 % 2 = 0 ∨ layer.kernel_size.2.1 % 2 = 0 ∨ kz % 2 = 0
  · rw [if_pos hc]
    constructor
    · intro hcontra
      cases hcontra
    · rintro ⟨⟨h1, h2, h3⟩, _⟩
      rcases hc with h | h | h <;> omega
  · rw [if_neg hc]
    push_neg at hc
    obtain ⟨h1, h2, h3⟩ := hc
    constructor
    · intro hok
      injection hok with hA
      exact ⟨⟨by omega, by omega, by omega⟩, hA.symm⟩
    · rintro ⟨_, rfl⟩
      rfl

/-- The single-point axis: extent 1 collapses to the single offset zero. -/
lemma axisOffsets_one (d a : Nat) : axisOffsets 1 d a = [0] := by
  have h1 : List.range 1 = [0] := rfl
  simp [axisOffsets, h1]

/-- The non-adaptive builder agrees with the adaptive builder at atrous
factor 1 (shared helper; both claim proofs below use it). -/
lemma adjRelFromKernel_eq_adaptive (layer : FLIMLayer) (dim3D : Bool) :
    iftFLIMAdjRelFromKernel layer dim3D = iftFLIMAdaptiveAdjRelFromKernel layer 1 dim3D := by
  unfold iftFLIMAdjRelFromKernel iftFLIMAdaptiveAdjRelFromKernel
  rw [axisOffsetsBase_eq, axisOffsetsBase_eq, axisOffsetsBase_eq]

/-- Core consequence of a successful adaptive builder run: offset count and
symmetry around zero. -/
lemma adaptive_ok_props (layer : FLIMLayer) (a : Nat) (dim3D : Bool)
    (A : List (Int × Int × Int))
    (h : iftFLIMAdaptiveAdjRelFromKernel layer a dim3D = .ok A) :
    A.length = layer.kernel_size.1 * layer.kernel_size.2.1 *
        (if dim3D then layer.kernel_size.2.2 else 1) ∧
      ∀ p ∈ A, -p ∈ A := by
  rw [adaptive_ok_iff] at h
  obtain ⟨⟨h1, h2, h3⟩, rfl⟩ := h
  constructor
  · rw [length_offsetGrid, length_axisOffsets, length_axisOffsets, length_axisOffsets]
  · exact neg_mem_offsetGrid
      (fun u hu => neg_mem_axisOffsets h1 hu)
      (fun u hu => neg_mem_axisOffsets h2 hu)
      (fun u hu => neg_mem_axisOffsets h3 hu)

/-- A sample layer with odd kernel extents (3, 3, 1). -/
def sampleLayer : FLIMLayer :=
  ⟨(3, 3, 1), (1, 1, 1), 8, 2, 4, true, "max_pool", (2, 2, 1), 2, []⟩

/-- The grid the adaptive builder produces for `sampleLayer` at atrous
factor 2 in 2D mode. -/
def sampleGrid2 : List (Int × Int × Int) :=
  [(-2, -2, 0), (0, -2, 0), (2, -2, 0), (-2, 0, 0), (0, 0, 0), (2, 0, 0),
   (-2, 2, 0), (0, 2, 0), (2, 2, 0)]

/-- The grid both builders produce for `sampleLayer` at atrous factor 1 in
2D mode. -/
def sampleGrid1 : List (Int × Int × Int) :=
  [(-1, -1, 0), (0, -1, 0), (1, -1, 0), (-1, 0, 0), (0, 0, 0), (1, 0, 0),
   (-1, 1, 0), (0, 1, 0), (1, 1, 0)]

/-- A layer whose first kernel extent is even (2, 3, 1): an invalid
adjacency configuration per §4.1. -/
def evenLayer : FLIMLayer :=
  ⟨(2, 3, 1), (1, 1, 1), 8, 2, 4, true, "no_pool", (1, 1, 1), 1, []⟩

/-- C1: for every valid Layer descriptor and every atrous factor ≥ 1, the
adjacency relation built by `iftFLIMAdjRelFromKernel` /
`iftFLIMAdaptiveAdjRelFromKernel` has exactly
`kernel_size.x * kernel_size.y * kernel_size.z` offsets (third factor forced
to 1 in 2D mode), and the offset set is symmetric around zero. -/
theorem adjRel_offset_count_and_symmetry (layer : FLIMLayer) (atrous_factor : Nat)
    (dim3D : Bool) (A B : List (Int × Int × Int)) (h_a : 1 ≤ atrous_factor)
    (hA : iftFLIMAdaptiveAdjRelFromKernel layer atrous_factor dim3D = .ok A)
    (hB : iftFLIMAdjRelFromKernel layer dim3D = .ok B) :
    (A.length = layer.kernel_size.1 * layer.kernel_size.2.1 *
        (if dim3D then layer.kernel_size.2.2 else 1) ∧ ∀ p ∈ A, -p ∈ A) ∧
    (B.length = layer.kernel_size.1 * layer.kernel_size.2.1 *
        (if dim3D then layer.kernel_size.2.2 else 1) ∧ ∀ p ∈ B, -p ∈ B) := by
  refine ⟨adaptive_ok_props layer atrous_factor dim3D A hA, ?_⟩
  rw [adjRelFromKernel_eq_adaptive] at hB
  exact adaptive_ok_props layer 1 dim3D B hB

/-- Witness for C1 at `sampleLayer`, atrous factor 2, 2D mode. -/
theorem adjRel_offset_count_and_symmetry_witness :
    (sampleGrid2.length = sampleLayer.kernel_size.1 * sampleLayer.kernel_size.2.1 *
        (if false then sampleLayer.kernel_size.2.2 else 1) ∧
      ∀ p ∈ sampleGrid2, -p ∈ sampleGrid2) ∧
    (sampleGrid1.length = sampleLayer.kernel_size.1 * sampleLayer.kernel_size.2.1 *
        (if false then sampleLayer.kernel_size.2.2 else 1) ∧
      ∀ p ∈ sampleGrid1, -p ∈ sampleGrid1) :=
  adjRel_offset_count_and_symmetry sampleLayer 2 false sampleGrid2 sampleGrid1
    (by decide) (by rfl) (by rfl)

/-- C2: every offset of a successful adaptive builder run is a per-axis
multiple of (dilation rate × atrous factor) with multiplier magnitude at most
`kernel_size / 2` — i.e. the grid spans `kernel_size` points per axis centered
at zero — and conversely; in 2D mode the third coordinate of every offset is
zero. -/
theorem adaptiveAdjRel_offset_characterization (layer : FLIMLayer)
    (atrous_factor : Nat) (dim3D : Bool) (A : List (Int × Int × Int))
    (h_a : 1 ≤ atrous_factor)
    (h : iftFLIMAdaptiveAdjRelFromKernel layer atrous_factor dim3D = .ok A) :
    (∀ p : Int × Int × Int, p ∈ A ↔
      ∃ mx my mz : Int,
        |mx| ≤ ((layer.kernel_size.1 / 2 : Nat) : Int) ∧
        |my| ≤ ((layer.kernel_size.2.1 / 2 : Nat) : Int) ∧
        |mz| ≤ (((if dim3D then layer.kernel_size.2.2 else 1) / 2 : Nat) : Int) ∧
        p = (mx * ((layer.dilation_rate.1 * atrous_factor : Nat) : Int),
             my * ((layer.dilation_rate.2.1 * atrous_factor : Nat) : Int),
             mz * ((layer.dilation_rate.2.2 * atrous_factor : Nat) : Int))) ∧
    (dim3D = false → ∀ p ∈ A, p.2.2 = 0) := by
  rw [adaptive_ok_iff] at h
  obtain ⟨⟨h1, h2, h3⟩, rfl⟩ := h
  constructor
  · rintro ⟨x, y, z⟩
    rw [mem_offsetGrid]
    simp only [mem_axisOffsets_iff _ _ h1, mem_axisOffsets_iff _ _ h2,
      mem_axisOffsets_iff _ _ h3]
    constructor
    · rintro ⟨⟨mx, hmx, rfl⟩, ⟨my, hmy, rfl⟩, ⟨mz, hmz, rfl⟩⟩
      exact ⟨mx, my, mz, hmx, hmy, hmz, rfl⟩
    · rintro ⟨mx, my, mz, hmx, hmy, hmz, heq⟩
      rw [Prod.mk.injEq, Prod.mk.injEq] at heq
      obtain ⟨rfl, rfl, rfl⟩ := heq
      exact ⟨⟨mx, hmx, rfl⟩, ⟨my, hmy, rfl⟩, ⟨mz, hmz, rfl⟩⟩
  · intro hdim p hp
    subst hdim
    rw [mem_offsetGrid] at hp
    have h0 := hp.2.2
    rw [show (if (false : Bool) = true then layer.kernel_size.2.2 else 1) = 1 from rfl,
      axisOffsets_one] at h0
    simpa using h0

/-- Witness for C2 at `sampleLayer`, atrous factor 2, 2D mode. -/
theorem adaptiveAdjRel_offset_characterization_witness :
    (∀ p : Int × Int × Int, p ∈ sampleGrid2 ↔
      ∃ mx my mz : Int,
        |mx| ≤ ((sampleLayer.kernel_size.1 / 2 : Nat) : Int) ∧
        |my| ≤ ((sampleLayer.kernel_size.2.1 / 2 : Nat) : Int) ∧
        |mz| ≤ (((if false then sampleLayer.kernel_size.2.2 else 1) / 2 : Nat) : Int) ∧
        p = (mx * ((sampleLayer.dilation_rate.1 * 2 : Nat) : Int),
             my * ((sampleLayer.dilation_rate.2.1 * 2 : Nat) : Int),
             mz * ((sampleLayer.dilation_rate.2.2 * 2 : Nat) : Int))) ∧
    (false = false → ∀ p ∈ sampleGrid2, p.2.2 = 0) :=
  adaptiveAdjRel_offset_characterization sampleLayer 2 false sampleGrid2
    (by decide) (by rfl)

/-- C3: an even kernel extent on an active axis makes both builders fail with
ConfigError; all-odd extents make both succeed with an offset set symmetric
around zero. -/
theorem adjRel_even_extent_fails_odd_succeeds (layer : FLIMLayer)
    (atrous_factor : Nat) (dim3D : Bool) :
    ((layer.kernel_size.1 % 2 = 0 ∨ layer.kernel_size.2.1 % 2 = 0 ∨
        (if dim3D then layer.kernel_size.2.2 else 1) % 2 = 0) →
      iftFLIMAdaptiveAdjRelFromKernel layer atrous_factor dim3D = .error .configError ∧
      iftFLIMAdjRelFromKernel layer dim3D = .error .configError) ∧
    ((layer.kernel_size.1 % 2 = 1 ∧ layer.kernel_size.2.1 % 2 = 1 ∧
        (if dim3D then layer.kernel_size.2.2 else 1) % 2 = 1) →
      (∃ A, iftFLIMAdaptiveAdjRelFromKernel layer atrous_factor dim3D = .ok A ∧
        ∀ p ∈ A, -p ∈ A) ∧
      (∃ B, iftFLIMAdjRelFromKernel layer dim3D = .ok B ∧ ∀ p ∈ B, -p ∈ B)) := by
  constructor
  · intro hc
    constructor
    · unfold iftFLIMAdaptiveAdjRelFromKernel
      rw [if_pos hc]
    · unfold iftFLIMAdjRelFromKernel
      rw [if_pos hc]
  · rintro ⟨h1, h2, h3⟩
    have hok : iftFLIMAdaptiveAdjRelFromKernel layer atrous_factor dim3D =
        .ok (offsetGrid
          (axisOffsets layer.kernel_size.1 layer.dilation_rate.1 atrous_factor)
          (axisOffsets layer.kernel_size.2.1 layer.dilation_rate.2.1 atrous_factor)
          (axisOffsets (if dim3D then layer.kernel_size.2.2 else 1)
            layer.dilation_rate.2.2 atrous_factor)) := by
      rw [adaptive_ok_iff]
      exact ⟨⟨h1, h2, h3⟩, rfl⟩
    have hok1 : iftFLIMAdjRelFromKernel layer dim3D =
        .ok (offsetGrid
          (axisOffsets layer.kernel_size.1 layer.dilation_rate.1 1)
          (axisOffsets layer.kernel_size.2.1 layer.dilation_rate.2.1 1)
          (axisOffsets (if dim3D then layer.kernel_size.2.2 else 1)
            layer.dilation_rate.2.2 1)) := by
      rw [adjRelFromKernel_eq_adaptive, adaptive_ok_iff]
      exact ⟨⟨h1, h2, h3⟩, rfl⟩
    exact ⟨⟨_, hok, (adaptive_ok_props layer atrous_factor dim3D _ hok).2⟩,
           ⟨_, hok1, (adaptive_ok_props layer 1 dim3D _
              (adjRelFromKernel_eq_adaptive layer dim3D ▸ hok1)).2⟩⟩

/-- Witness for C3: the even branch at `evenLayer`, the odd branch at
`sampleLayer`. -/
theorem adjRel_even_extent_fails_odd_succeeds_witness :
    (iftFLIMAdaptiveAdjRelFromKernel evenLayer 1 false = .error .configError ∧
      iftFLIMAdjRelFromKernel evenLayer false = .error .configError) ∧
    ((∃ A, iftFLIMAdaptiveAdjRelFromKernel sampleLayer 1 false = .ok A ∧
        ∀ p ∈ A, -p ∈ A) ∧
     (∃ B, iftFLIMAdjRelFromKernel sampleLayer false = .ok B ∧ ∀ p ∈ B, -p ∈ B)) :=
  ⟨(adjRel_even_extent_fails_odd_succeeds evenLayer 1 false).1 (Or.inl (by decide)),
   (adjRel_even_extent_fails_odd_succeeds sampleLayer 1 false).2
     ⟨by decide, by decide, by decide⟩⟩

/-- C10: the non-adaptive builder `iftFLIMAdjRelFromKernel` is the adaptive
builder `iftFLIMAdaptiveAdjRelFromKernel` specialized to atrous factor 1:
same offsets in the same order, for every layer and 2D/3D flag. -/
theorem adjRelFromKernel_is_adaptive_at_one (layer : FLIMLayer) (dim3D : Bool) :
    iftFLIMAdjRelFromKernel layer dim3D = iftFLIMAdaptiveAdjRelFromKernel layer 1 dim3D :=
  adjRelFromKernel_eq_adaptive layer dim3D

/-! ## Kernel Bank Curator (spec §4.6) -/

/-- One learned kernel: flattened weights plus the per-kernel statistics
(clustering mode) or bias (SGD mode) persisted alongside it. -/
structure Kernel where
  weights : List Rat
  mean : Rat
  stdev : Rat
  bias : Rat
deriving DecidableEq

instance : Inhabited Kernel := ⟨⟨[], 0, 1, 0⟩⟩

/-- Modelled from the spec: `iftFLIMSelectKernelsManual` (iftFLIM.h line 204;
its implementation is not under `src/`).  The C function takes the paths of a
kernel-bank `.npy` file and a selection-manifest `.json` file; file I/O is an
external collaborator, so the model takes the loaded bank and manifest.  Per
§4.6: fails with ConfigError if the manifest is empty or any index is out of
range; otherwise returns exactly the selected kernels, in manifest order,
statistics/bias carried over unchanged. -/
def iftFLIMSelectKernelsManual (bank : List Kernel) (manifest : List Nat) :
    Except FLIMError (List Kernel) :=
  if manifest = [] then
    .error .configError
  else if manifest.all (fun i => decide (i < bank.length)) then
    .ok (manifest.map (fun i => bank.getD i default))
  else
    .error .configError

/-- C4: with `M ≤ N` distinct in-range indices the curator returns exactly
`M` kernels in manifest order (each with its statistics/bias, i.e. the whole
`Kernel`, carried over unchanged); any out-of-range index, and the empty
manifest, give ConfigError. -/
theorem selectKernelsManual_spec (bank : List Kernel) (manifest : List Nat) :
    (manifest ≠ [] → manifest.Nodup → (∀ i ∈ manifest, i < bank.length) →
      ∃ out, iftFLIMSelectKernelsManual bank manifest = .ok out ∧
        out.length = manifest.length ∧
        ∀ j, (hj : j < manifest.length) →
          out[j]? = bank[manifest.get ⟨j, hj⟩]?) ∧
    ((∃ i ∈ manifest, bank.length ≤ i) →
      iftFLIMSelectKernelsManual bank manifest = .error .configError) ∧
    (iftFLIMSelectKernelsManual bank [] = .error .configError) := by
  refine ⟨?_, ?_, rfl⟩
  · intro hne hnodup hran
    have hall : manifest.all (fun i => decide (i < bank.length)) = true := by
      rw [List.all_eq_true]
      intro i hi
      simpa using hran i hi
    refine ⟨manifest.map (fun i => bank.getD i default), ?_, ?_, ?_⟩
    · unfold iftFLIMSelectKernelsManual
      rw [if_neg hne, if_pos hall]
    · rw [List.length_map]
    · intro j hj
      have hm : manifest[j]? = some (manifest.get ⟨j, hj⟩) := by
        rw [List.getElem?_eq_getElem hj]
        rfl
      have hlt : manifest.get ⟨j, hj⟩ < bank.length :=
        hran _ (manifest.get_mem j hj)
      have hgd : bank.getD (manifest.get ⟨j, hj⟩) default =
          bank[manifest.get ⟨j, hj⟩] :=
        List.getD_eq_getElem bank default hlt
      rw [List.getElem?_map, hm, List.getElem?_eq_getElem hlt]
      exact congrArg some hgd
  · rintro ⟨i, hi, hge⟩
    have hne : manifest ≠ [] := by
      intro hcontra
      rw [hcontra] at hi
      cases hi
    have hall : ¬manifest.all (fun i => decide (i < bank.length)) = true := by
      rw [List.all_eq_true]
      intro hcontra
      have := hcontra i hi
      simp at this
      omega
    unfold iftFLIMSelectKernelsManual
    rw [if_neg hne, if_neg hall]

/-- A sample bank of three kernels with distinct weights and statistics. -/
def sampleBank : List Kernel :=
  [⟨[1, 0], 0, 1, 0⟩, ⟨[0, 1], 1, 2, 3⟩, ⟨[2, 3], 4, 5, 6⟩]

/-- Witness for C4: the success branch on manifest [2, 0], the out-of-range
branch on manifest [5], and the empty manifest. -/
theorem selectKernelsManual_spec_witness :
    (∃ out, iftFLIMSelectKernelsManual sampleBank [2, 0] = .ok out ∧
        out.length = [2, 0].length ∧
        ∀ j, (hj : j < [2, 0].length) →
          out[j]? = sampleBank[[2, 0].get ⟨j, hj⟩]?) ∧
    (iftFLIMSelectKernelsManual sampleBank [5] = .error .configError) ∧
    (iftFLIMSelectKernelsManual sampleBank [] = .error .configError) :=
  ⟨(selectKernelsManual_spec sampleBank [2, 0]).1 (by decide) (by decide)
      (by decide),
   (selectKernelsManual_spec sampleBank [5]).2.1 ⟨5, by decide, by decide⟩,
   (selectKernelsManual_spec sampleBank []).2.2⟩

/-! ## Architecture (de)serialization (spec §6, round-trip property §8) -/

/-- A structured (JSON-like) value.  The spec treats JSON parsing as an
external collaborator; the architecture file content is modelled as this
tree. -/
inductive JVal where
  | jint : Int → JVal
  | jrat : Rat → JVal
  | jbool : Bool → JVal
  | jstr : String → JVal
  | jarr : List JVal → JVal
  | jobj : List (String × JVal) → JVal

/-- Parse every element of a list, failing if any element fails. -/
def mapOptionList {α : Type} (r : JVal → Option α) : List JVal → Option (List α)
  | [] => some []
  | v :: vs => do
      let x ← r v
      let xs ← mapOptionList r vs
      some (x :: xs)

/-- Serialize a triple of extents as a 3-element array. -/
def writeTriple (t : Nat × Nat × Nat) : JVal :=
  .jarr [.jint (t.1 : Int), .jint (t.2.1 : Int), .jint (t.2.2 : Int)]

/-- Parse a triple of extents. -/
def readTriple : JVal → Option (Nat × Nat × Nat)
  | .jarr [.jint x, .jint y, .jint z] => some (x.toNat, y.toNat, z.toNat)
  | _ => none

/-- Parse a non-negative integer. -/
def readNatJson : JVal → Option Nat
  | .jint i => some i.toNat
  | _ => none

/-- Parse a boolean. -/
def readBoolJson : JVal → Option Bool
  | .jbool b => some b
  | _ => none

/-- Parse a string. -/
def readStrJson : JVal → Option String
  | .jstr s => some s
  | _ => none

/-- Parse a rational (the model of a C float). -/
def readRatJson : JVal → Option Rat
  | .jrat q => some q
  | _ => none

/-- Parse an array of non-negative integers. -/
def readNatListJson : JVal → Option (List Nat)
  | .jarr vs => mapOptionList readNatJson vs
  | _ => none

/-- Serialize one layer's hyperparameters. -/
def writeLayerJson (l : FLIMLayer) : JVal :=
  .jobj [("kernel_size", writeTriple l.kernel_size),
         ("dilation_rate", writeTriple l.dilation_rate),
         ("nkernels_per_image", .jint (l.nkernels_per_image : Int)),
         ("nkernels_per_marker", .jint (l.nkernels_per_marker : Int)),
         ("noutput_channels", .jint (l.noutput_channels : Int)),
         ("relu", .jbool l.relu),
         ("pool_type", .jstr l.pool_type),
         ("pool_size", writeTriple l.pool_size),
         ("pool_stride", .jint (l.pool_stride : Int)),
         ("skip_connection",
           .jarr (l.skip_connection.map (fun (i : Nat) => .jint (i : Int))))]

/-- Parse one layer's hyperparameters (fields keyed by name). -/
def readLayerJson : JVal → Option FLIMLayer
  | .jobj fields => do
      let ks ← (fields.lookup "kernel_size").bind readTriple
      let dr ← (fields.lookup "dilation_rate").bind readTriple
      let ni ← (fields.lookup "nkernels_per_image").bind readNatJson
      let nm ← (fields.lookup "nkernels_per_marker").bind readNatJson
      let nc ← (fields.lookup "noutput_channels").bind readNatJson
      let r ← (fields.lookup "relu").bind readBoolJson
      let pt ← (fields.lookup "pool_type").bind readStrJson
      let ps ← (fields.lookup "pool_size").bind readTriple
      let st ← (fields.lookup "pool_stride").bind readNatJson
      let sk ← (fields.lookup "skip_connection").bind readNatListJson
      some ⟨ks, dr, ni, nm, nc, r, pt, ps, st, sk⟩
  | _ => none

/-- Modelled from the spec: `iftWriteFLIMArch` (iftFLIM.h line 73; its
implementation is not under `src/`).  Writes the architecture — layer count,
every per-layer hyperparameter, and the global hyperparameters — as a
structured value (the `.json` file's content). -/
def iftWriteFLIMArch (arch : FLIMArch) : JVal :=
  .jobj [("nlayers", .jint (arch.nlayers : Int)),
         ("layers", .jarr (arch.layer.map writeLayerJson)),
         ("stdev_factor", .jrat arch.stdev_factor),
         ("apply_intrinsic_atrous", .jbool arch.apply_intrinsic_atrous)]

/-- Modelled from the spec: `iftReadFLIMArch` (iftFLIM.h line 61; its
implementation is not under `src/`).  Reads an architecture back from the
structured value; malformed content fails (ConfigError surfaced as `none`). -/
def iftReadFLIMArch : JVal → Option FLIMArch
  | .jobj fields => do
      let n ← (fields.lookup "nlayers").bind readNatJson
      let sf ← (fields.lookup "stdev_factor").bind readRatJson
      let b ← (fields.lookup "apply_intrinsic_atrous").bind readBoolJson
      let layers ←
        match fields.lookup "layers" with
        | some (.jarr ls) => mapOptionList readLayerJson ls
        | _ => none
      some ⟨n, layers, sf, b⟩
  | _ => none

/-- Generic round-trip for element lists: if the reader inverts the writer on
every element, `mapM` of the reader inverts `map` of the writer. -/
lemma mapM_map_of_roundtrip {α : Type} (w : α → JVal) (r : JVal → Option α)
    (h : ∀ x, r (w x) = some x) (l : List α) :
    mapOptionList r (l.map w) = some l := by
  induction l with
  | nil => rfl
  | cons x xs ih => simp [mapOptionList, h, ih]

lemma readLayerJson_writeLayerJson (l : FLIMLayer) :
    readLayerJson (writeLayerJson l) = some l := by
  obtain ⟨ks, dr, ni, nm, nc, r, pt, ps, st, sk⟩ := l
  show Option.bind
      (mapOptionList readNatJson (sk.map (fun (i : Nat) => JVal.jint (i : Int))))
      (fun skv => some (FLIMLayer.mk ks dr ni nm nc r pt ps st skv)) =
    some (FLIMLayer.mk ks dr ni nm nc r pt ps st sk)
  rw [mapM_map_of_roundtrip (fun (i : Nat) => JVal.jint (i : Int)) readNatJson
    (fun x => rfl) sk]
  rfl

/-- C5: writing an architecture and reading it back reproduces every field:
layer count, every per-layer hyperparameter, and the global hyperparameters
`stdev_factor` and `apply_intrinsic_atrous`. -/
theorem writeFLIMArch_readFLIMArch_roundtrip (arch : FLIMArch)
    (hvalid : 1 ≤ arch.nlayers) :
    iftReadFLIMArch (iftWriteFLIMArch arch) = some arch := by
  obtain ⟨n, layers, sf, b⟩ := arch
  show Option.bind (mapOptionList readLayerJson (layers.map writeLayerJson))
      (fun ls => some (FLIMArch.mk n ls sf b)) = some (FLIMArch.mk n layers sf b)
  rw [mapM_map_of_roundtrip writeLayerJson readLayerJson
    readLayerJson_writeLayerJson layers]
  rfl

/-- A one-layer sample architecture. -/
def sampleArch : FLIMArch := ⟨1, [sampleLayer], 1 / 100, true⟩

/-- Witness for C5 at `sampleArch`. -/
theorem writeFLIMArch_readFLIMArch_roundtrip_witness :
    1 ≤ sampleArch.nlayers ∧
      iftReadFLIMArch (iftWriteFLIMArch sampleArch) = some sampleArch :=
  ⟨by decide, writeFLIMArch_readFLIMArch_roundtrip sampleArch (by decide)⟩

/-! ## Multiband images and pooling (spec §3, §4.4 step 5, §8) -/

/-- A multiband (2D or 3D) image: spatial extents, channel count `m`
(the C `iftMImage` field name), and the channel value at each voxel.
Coordinates or bands outside the domain are irrelevant to every statement
below. -/
structure MImage where
  xsize : Nat
  ysize : Nat
  zsize : Nat
  m : Nat
  val : Nat → Nat → Nat → Nat → Rat

/-- Maximum of a list of values (0 for the empty list; pooling windows are
never empty because the anchor voxel is always in range). -/
def listMax : List Rat → Rat
  | [] => 0
  | x :: xs => xs.foldl max x

/-- The in-range input positions of a pooling window on one axis: anchored at
`u * stride`, spanning `extent` points with step `atrous`, clamped at the
border `size`. -/
def poolPositions (size stride atrous extent u : Nat) : List Nat :=
  (List.range extent).filterMap (fun i =>
    if u * stride + i * atrous < size then some (u * stride + i * atrous) else none)

/-- Modelled from the spec: `iftFLIMAtrousMaxPooling` (iftFLIM.h line 190;
its implementation is not under `src/`).  Per §4.4 step 5 and the §8 pooling
example: reduces with a window of the configured extent and stride, window
offsets scaled by the atrous factor and clamped at borders; output spatial
size is `⌈size/stride⌉` per axis; channel count unchanged. -/
def iftFLIMAtrousMaxPooling (mimg : MImage)
    (width height depth atrous_factor stride : Nat) : MImage :=
  ⟨(mimg.xsize + stride - 1) / stride,
   (mimg.ysize + stride - 1) / stride,
   (mimg.zsize + stride - 1) / stride,
   mimg.m,
   fun u v w b =>
     listMax ((poolPositions mimg.xsize stride atrous_factor width u).flatMap
       (fun x => (poolPositions mimg.ysize stride atrous_factor height v).flatMap
         (fun y => (poolPositions mimg.zsize stride atrous_factor depth w).map
           (fun z => mimg.val x y z b))))⟩

lemma poolPositions_two (size u : Nat) (h : u * 2 + 1 < size) :
    poolPositions size 2 1 2 u = [u * 2, u * 2 + 1] := by
  have h0 : u * 2 < size := by omega
  unfold poolPositions
  rw [show List.range 2 = [0, 1] from rfl]
  rw [List.filterMap_cons, List.filterMap_cons, List.filterMap_nil]
  simp [h0, h]

lemma poolPositions_one_at_zero (size : Nat) (h : 0 < size) :
    poolPositions size 2 1 1 0 = [0] := by
  unfold poolPositions
  rw [show List.range 1 = [0] from rfl]
  rw [List.filterMap_cons, List.filterMap_nil]
  simp [h]

/-- C6: on a feature map of spatial size (8, 8), max pooling with
`pool_size = [2, 2, 1]`, `pool_stride = 2` (atrous factor 1) produces spatial
size (4, 4), and every output voxel is the maximum of its non-overlapping
2×2 input window, on every channel. -/
theorem atrousMaxPooling_8x8_nonoverlapping (mimg : MImage)
    (h1 : mimg.xsize = 8) (h2 : mimg.ysize = 8) (h3 : mimg.zsize = 1) :
    (iftFLIMAtrousMaxPooling mimg 2 2 1 1 2).xsize = 4 ∧
    (iftFLIMAtrousMaxPooling mimg 2 2 1 1 2).ysize = 4 ∧
    ∀ u v b : Nat, u < 4 → v < 4 →
      (iftFLIMAtrousMaxPooling mimg 2 2 1 1 2).val u v 0 b =
        max (max (mimg.val (u * 2) (v * 2) 0 b) (mimg.val (u * 2) (v * 2 + 1) 0 b))
            (max (mimg.val (u * 2 + 1) (v * 2) 0 b)
                 (mimg.val (u * 2 + 1) (v * 2 + 1) 0 b)) := by
  refine ⟨?_, ?_, ?_⟩
  · show (mimg.xsize + 2 - 1) / 2 = 4
    rw [h1]
  · show (mimg.ysize + 2 - 1) / 2 = 4
    rw [h2]
  · intro u v b hu hv
    show listMax ((poolPositions mimg.xsize 2 1 2 u).flatMap
      (fun x => (poolPositions mimg.ysize 2 1 2 v).flatMap
        (fun y => (poolPositions mimg.zsize 2 1 1 0).map
          (fun z => mimg.val x y z b)))) = _
    rw [poolPositions_two mimg.xsize u (by omega),
      poolPositions_two mimg.ysize v (by omega),
      poolPositions_one_at_zero mimg.zsize (by omega)]
    show max (max (max (mimg.val (u * 2) (v * 2) 0 b)
        (mimg.val (u * 2) (v * 2 + 1) 0 b)) (mimg.val (u * 2 + 1) (v * 2) 0 b))
        (mimg.val (u * 2 + 1) (v * 2 + 1) 0 b) = _
    rw [max_assoc]

/-- A sample (8, 8) single-band image. -/
def img8 : MImage := ⟨8, 8, 1, 1, fun x y _ _ => (x : Rat) + 8 * (y : Rat)⟩

/-- Witness for C6 at `img8`, output voxel (1, 2). -/
theorem atrousMaxPooling_8x8_nonoverlapping_witness :
    (iftFLIMAtrousMaxPooling img8 2 2 1 1 2).xsize = 4 ∧
    (iftFLIMAtrousMaxPooling img8 2 2 1 1 2).val 1 2 0 0 =
      max (max (img8.val 2 4 0 0) (img8.val 2 5 0 0))
          (max (img8.val 3 4 0 0) (img8.val 3 5 0 0)) :=
  ⟨(atrousMaxPooling_8x8_nonoverlapping img8 rfl rfl rfl).1,
   (atrousMaxPooling_8x8_nonoverlapping img8 rfl rfl rfl).2.2 1 2 0
     (by decide) (by decide)⟩

/-! ## Forward Pipeline (spec §4.4) -/

/-- Channel value at a possibly out-of-range position: zero-padding at the
border (§4.2 requires one explicit, consistent border policy; the model uses
zero padding for training and extraction alike). -/
def valAt (mimg : MImage) (x y z : Int) (b : Nat) : Rat :=
  if 0 ≤ x ∧ x < (mimg.xsize : Int) ∧ 0 ≤ y ∧ y < (mimg.ysize : Int) ∧
      0 ≤ z ∧ z < (mimg.zsize : Int) then
    mimg.val x.toNat y.toNat z.toNat b
  else 0

/-- The flattened neighborhood vector at a voxel: for every adjacency offset,
the values of all input channels (adjacency-major, channel-minor order). -/
def gatherPatch (mimg : MImage) (A : List (Int × Int × Int)) (x y z : Nat) :
    List Rat :=
  A.flatMap (fun d => (List.range mimg.m).map (fun c =>
    valAt mimg ((x : Int) + d.1) ((y : Int) + d.2.1) ((z : Int) + d.2.2) c))

/-- Dot product of two flattened vectors. -/
def dotList (a b : List Rat) : Rat := (List.zipWith (fun p q => p * q) a b).sum

/-- Convolution step (§4.4 step 1): one output channel per kernel of the
bank; each output value is the dot product of the gathered neighborhood with
the kernel weights plus its bias (bias is zero in clustering mode). -/
def convolve (A : List (Int × Int × Int)) (bank : List Kernel) (mimg : MImage) :
    MImage :=
  ⟨mimg.xsize, mimg.ysize, mimg.zsize, bank.length,
   fun x y z b =>
     match bank[b]? with
     | some ker => dotList (gatherPatch mimg A x y z) ker.weights + ker.bias
     | none => 0⟩

/-- Normalization step (§4.4 step 2, clustering mode): subtract the stored
per-kernel mean, divide by the stored per-kernel scaled standard deviation. -/
def normalizeByStats (bank : List Kernel) (mimg : MImage) : MImage :=
  ⟨mimg.xsize, mimg.ysize, mimg.zsize, mimg.m,
   fun x y z b =>
     match bank[b]? with
     | some ker => (mimg.val x y z b - ker.mean) / ker.stdev
     | none => mimg.val x y z b⟩

/-- Activation step (§4.4 step 3): rectified-linear if the layer flag is set,
identity otherwise. -/
def reluActivation (flag : Bool) (mimg : MImage) : MImage :=
  ⟨mimg.xsize, mimg.ysize, mimg.zsize, mimg.m,
   fun x y z b => if flag then max 0 (mimg.val x y z b) else mimg.val x y z b⟩

/-- Channel-wise concatenation for skip connections (§4.4 step 4); fails with
DimensionError when the spatial resolutions cannot be reconciled. -/
def concatChannels (a b : MImage) : Except FLIMError MImage :=
  if a.xsize = b.xsize ∧ a.ysize = b.ysize ∧ a.zsize = b.zsize then
    .ok ⟨a.xsize, a.ysize, a.zsize, a.m + b.m,
      fun x y z c => if c < a.m then a.val x y z c else b.val x y z (c - a.m)⟩
  else
    .error .dimensionError

/-- Apply the layer's skip-connection list (§4.4 step 4): concatenate each
referenced earlier layer's output (the arena of already-computed feature
maps) with the current output, in list order. -/
def applySkips (arena : List MImage) (idxs : List Nat) (cur : MImage) :
    Except FLIMError MImage :=
  match idxs with
  | [] => .ok cur
  | i :: rest =>
    match arena[i]? with
    | some earlier =>
      match concatChannels cur earlier with
      | .ok c => applySkips arena rest c
      | .error e => .error e
    | none => .error .configError

/-- Modelled from the spec: `iftFLIMAtrousAveragePooling` (iftFLIM.h
line 175; its implementation is not under `src/`): same window geometry as
max pooling, averaging instead of maximizing. -/
def iftFLIMAtrousAveragePooling (mimg : MImage)
    (width height depth atrous_factor stride : Nat) : MImage :=
  ⟨(mimg.xsize + stride - 1) / stride,
   (mimg.ysize + stride - 1) / stride,
   (mimg.zsize + stride - 1) / stride,
   mimg.m,
   fun u v w b =>
     let vals := (poolPositions mimg.xsize stride atrous_factor width u).flatMap
       (fun x => (poolPositions mimg.ysize stride atrous_factor height v).flatMap
         (fun y => (poolPositions mimg.zsize stride atrous_factor depth w).map
           (fun z => mimg.val x y z b)))
     vals.sum / (vals.length : Rat)⟩

/-- Pooling dispatch (§4.4 step 5): "no_pool" passes the image through
unchanged; "avg_pool" / "max_pool" reduce with the layer's pooling extent and
stride, with the same atrous-factor logic as §4.1. -/
def applyPool (layer : FLIMLayer) (atrous_factor : Nat) (mimg : MImage) : MImage :=
  if layer.pool_type = "avg_pool" then
    iftFLIMAtrousAveragePooling mimg layer.pool_size.1 layer.pool_size.2.1
      layer.pool_size.2.2 atrous_factor layer.pool_stride
  else if layer.pool_type = "max_pool" then
    iftFLIMAtrousMaxPooling mimg layer.pool_size.1 layer.pool_size.2.1
      layer.pool_size.2.2 atrous_factor layer.pool_stride
  else
    mimg

/-- Modelled from the spec: one layer of the Forward Pipeline inside
`iftFLIMExtractFeatures` (iftFLIM.h line 139; its implementation is not under
`src/`).  Per §4.4: convolve with the layer's kernel bank over the adjacency
relation, normalize by the stored statistics, activate, apply skip
connections against the arena of earlier layer outputs, pool. -/
def flimForwardLayer (arena : List MImage) (layer : FLIMLayer)
    (bank : List Kernel) (atrous_factor : Nat) (dim3D : Bool) (mimg : MImage) :
    Except FLIMError MImage :=
  match iftFLIMAdaptiveAdjRelFromKernel layer atrous_factor dim3D with
  | .error e => .error e
  | .ok A =>
    match applySkips arena layer.skip_connection
        (reluActivation layer.relu (normalizeByStats bank (convolve A bank mimg))) with
    | .error e => .error e
    | .ok skipped => .ok (applyPool layer atrous_factor skipped)

lemma applyPool_m (layer : FLIMLayer) (a : Nat) (mimg : MImage) :
    (applyPool layer a mimg).m = mimg.m := by
  unfold applyPool
  split
  · rfl
  · split
    · rfl
    · rfl

/-- Channel count of a feature map wrapped in `Except` (0 on error). -/
def exceptChannels : Except FLIMError MImage → Nat
  | .ok mimg => mimg.m
  | .error _ => 0

/-- A 1×1×1 two-channel feature map (an earlier layer's output). -/
def img1 : MImage := ⟨1, 1, 1, 2, fun _ _ _ _ => 0⟩

/-- A 1×1×1 single-channel input image. -/
def img0 : MImage := ⟨1, 1, 1, 1, fun _ _ _ _ => 0⟩

/-- A layer with `noutput_channels = 1` and a skip connection to layer 0. -/
def skipLayer : FLIMLayer :=
  ⟨(1, 1, 1), (1, 1, 1), 1, 1, 1, false, "no_pool", (1, 1, 1), 1, [0]⟩

/-- The same layer without the skip connection. -/
def noSkipLayer : FLIMLayer :=
  ⟨(1, 1, 1), (1, 1, 1), 1, 1, 1, false, "no_pool", (1, 1, 1), 1, []⟩

/-- A one-kernel bank matching `noutput_channels = 1`. -/
def bank1 : List Kernel := [⟨[0], 0, 1, 0⟩]

/-- Counterexample to C7 as stated: with a skip connection the output channel
count is the kernel-bank size plus the skip-connected layer's channel count
(here 1 + 2 = 3), not `noutput_channels` (= 1 = bank size). -/
theorem flimForwardLayer_skip_channels_counterexample :
    exceptChannels (flimForwardLayer [img1] skipLayer bank1 1 false img0) = 3 ∧
      skipLayer.noutput_channels = 1 ∧ bank1.length = 1 :=
  ⟨rfl, rfl, rfl⟩

/-- C7 (amended): for every layer with no skip connections, the channel count
of the output feature map equals the size of the kernel bank loaded for the
layer (`noutput_channels`, or the curated subset size if a curated bank was
loaded), independent of the input image's spatial size. -/
theorem flimForwardLayer_output_channels (arena : List MImage)
    (layer : FLIMLayer) (bank : List Kernel) (atrous_factor : Nat)
    (dim3D : Bool) (mimg : MImage) (out : MImage)
    (hskip : layer.skip_connection = [])
    (h : flimForwardLayer arena layer bank atrous_factor dim3D mimg = .ok out) :
    out.m = bank.length := by
  unfold flimForwardLayer at h
  cases hA : iftFLIMAdaptiveAdjRelFromKernel layer atrous_factor dim3D with
  | error e =>
    rw [hA] at h
    cases h
  | ok A =>
    rw [hA, hskip] at h
    have h2 : (Except.ok (applyPool layer atrous_factor
        (reluActivation layer.relu (normalizeByStats bank (convolve A bank mimg)))) :
          Except FLIMError MImage) = .ok out := h
    injection h2 with h3
    rw [← h3, applyPool_m]
    rfl

/-- The output of the no-skip run used as the C7 witness. -/
def imgOutW : MImage :=
  match flimForwardLayer [] noSkipLayer bank1 1 false img0 with
  | .ok mimg => mimg
  | .error _ => ⟨0, 0, 0, 0, fun _ _ _ _ => 0⟩

/-- Witness for C7 (amended) on a concrete no-skip layer run. -/
theorem flimForwardLayer_output_channels_witness : imgOutW.m = bank1.length :=
  flimForwardLayer_output_channels [] noSkipLayer bank1 1 false img0 imgOutW
    rfl rfl

/-! ## Batch Sizer (spec §4.5) -/

/-- Modelled from the spec: the per-image memory cost (in scalar values) of
running the architecture on an image with the given voxel and channel counts:
the largest feature map the run holds, i.e. the input and every layer
output. -/
def flimImageCost (arch : FLIMArch) (nvoxels nchannels : Nat) : Nat :=
  arch.layer.foldl (fun acc l => max acc (nvoxels * l.noutput_channels))
    (nvoxels * nchannels)

/-- Modelled from the spec: `iftFLIMBatchSizeCPU` (iftFLIM.h line 140; its
implementation is not under `src/`).  The C function reads the configured CPU
memory ceiling from the environment; the model takes that ceiling (`budget`,
in scalar values) as an explicit argument.  Per §4.5: the maximum number of
images processable concurrently within the budget; ResourceError when a
single image alone exceeds it. -/
def iftFLIMBatchSizeCPU (arch : FLIMArch)
    (input_image_nvoxels input_image_nchannels budget : Nat) :
    Except FLIMError Nat :=
  if budget < flimImageCost arch input_image_nvoxels input_image_nchannels then
    .error .resourceError
  else
    .ok (budget / flimImageCost arch input_image_nvoxels input_image_nchannels)

lemma le_flimImageCost (arch : FLIMArch) (nvoxels nchannels : Nat) :
    nvoxels * nchannels ≤ flimImageCost arch nvoxels nchannels := by
  unfold flimImageCost
  generalize nvoxels * nchannels = init
  induction arch.layer generalizing init with
  | nil => exact le_refl _
  | cons l ls ih =>
    exact le_trans (le_max_left _ _) (ih (max init (nvoxels * l.noutput_channels)))

/-- C8: the Batch Sizer is a deterministic function of its inputs, returns a
positive batch size whenever at least one image fits the budget, and fails
with ResourceError when a single image alone exceeds the budget. -/
theorem flimBatchSizeCPU_spec (arch : FLIMArch) (nvoxels nchannels budget : Nat) :
    (∀ arch₂ nvoxels₂ nchannels₂ budget₂, arch = arch₂ → nvoxels = nvoxels₂ →
      nchannels = nchannels₂ → budget = budget₂ →
      iftFLIMBatchSizeCPU arch nvoxels nchannels budget =
        iftFLIMBatchSizeCPU arch₂ nvoxels₂ nchannels₂ budget₂) ∧
    (0 < nvoxels → 0 < nchannels →
      flimImageCost arch nvoxels nchannels ≤ budget →
      ∃ n, iftFLIMBatchSizeCPU arch nvoxels nchannels budget = .ok n ∧ 0 < n) ∧
    (budget < flimImageCost arch nvoxels nchannels →
      iftFLIMBatchSizeCPU arch nvoxels nchannels budget = .error .resourceError) := by
  refine ⟨?_, ?_, ?_⟩
  · intro arch₂ nvoxels₂ nchannels₂ budget₂ ha hv hc hb
    subst ha; subst hv; subst hc; subst hb
    rfl
  · intro hv hc hfit
    have hpos : 0 < flimImageCost arch nvoxels nchannels :=
      lt_of_lt_of_le (Nat.mul_pos hv hc) (le_flimImageCost arch nvoxels nchannels)
    refine ⟨budget / flimImageCost arch nvoxels nchannels, ?_, ?_⟩
    · unfold iftFLIMBatchSizeCPU
      rw [if_neg (not_lt.mpr hfit)]
    · exact Nat.div_pos hfit hpos
  · intro hover
    unfold iftFLIMBatchSizeCPU
    rw [if_pos hover]

/-- Witness for C8 at `sampleArch`: budget 10000 fits (batch 25), budget 10
does not. -/
theorem flimBatchSizeCPU_spec_witness :
    (iftFLIMBatchSizeCPU sampleArch 100 3 10000 =
      iftFLIMBatchSizeCPU sampleArch 100 3 10000) ∧
    (∃ n, iftFLIMBatchSizeCPU sampleArch 100 3 10000 = .ok n ∧ 0 < n) ∧
    (iftFLIMBatchSizeCPU sampleArch 100 3 10 = .error .resourceError) :=
  ⟨(flimBatchSizeCPU_spec sampleArch 100 3 10000).1 sampleArch 100 3 10000
      rfl rfl rfl rfl,
   (flimBatchSizeCPU_spec sampleArch 100 3 10000).2.1 (by decide) (by decide)
      (by decide),
   (flimBatchSizeCPU_spec sampleArch 100 3 10).2.2 (by decide)⟩

end FLIM
